import Mathlib

/-!
A shallow embedding of the Cherry lexer (`src/compiler/ccherry-lexer/src/lib.rs`
together with its token model `src/compiler/ccherry-lexer/src/token.rs`) and
proofs about it.

The Rust lexer holds a `Vec<char>`, a cursor `idx` and a pending-comment
buffer; here that is `LexState`.  Every Rust scanning routine returns
`Result<T, Diagnostic<()>>` while mutating `self`; here each routine takes a
`LexState` and returns a `Step` value carrying the result together with the
state at the point of return.  Rust `loop`s become fuel-indexed structural
recursion; `Step.stuck` marks fuel exhaustion and occurs for no sufficiently
large fuel.  An out-of-bounds `Vec` index, which panics in Rust, is modelled
by `Step.panic`.  Machine integers (`i64`) are modelled as `Int` with the
explicit range check performed by the embedded `parse`/`from_str_radix`
functions.  Rust `f64` values are not shallowly embeddable; `Float` tokens
therefore carry the literal text whose parse succeeded, and only the
success/failure of the parse (which is all the lexer inspects) is modelled.
-/

namespace Cherry

/-- Models `Loc = Range<usize>` from `token.rs` as a pair (start, end). -/
abbrev Loc := Nat × Nat

/-- `Spacing` from `token.rs`: the spacing between a token and the next. -/
inductive Spacing where
  | none
  | whitespace
  | lineBreak
deriving DecidableEq, Repr

/-- `CommentKind` from `token.rs`. -/
inductive CommentKind where
  | line
  | doc
  | block
deriving DecidableEq, Repr

/-- `Comment` from `token.rs`. -/
structure Comment where
  loc : Loc
  value : String
  kind : CommentKind
deriving DecidableEq, Repr

/-- `Skipped` from `token.rs`: information about a skipped trivia unit. -/
inductive Skipped where
  | comment (c : Comment)
  | whitespace
  | lineBreak
  | none
deriving DecidableEq, Repr

/-- `IntKind` from `token.rs`. -/
inductive IntKind where
  | decimal
  | hexadecimal
  | binary
deriving DecidableEq, Repr

/-- A label of a `codespan_reporting` diagnostic: `Label::primary`/`secondary`
with a range and a message. -/
structure DiagLabel where
  primary : Bool
  loc : Loc
  msg : String
deriving DecidableEq, Repr

/-- A `codespan_reporting` `Diagnostic<()>` as the lexer builds it:
`Diagnostic::error().with_code(..).with_labels(..).with_message(..)`. -/
structure Diag where
  code : String
  message : String
  labels : List DiagLabel
deriving DecidableEq, Repr

/-- `TokenTree` from `token.rs`, with the `Iden`/`Punct`/`Int`/`Float`/`Str`/
`Group` payload structs inlined as constructor arguments (in field order).
The `Float` payload carries the literal text, see the module comment. -/
inductive TokenTree where
  | iden (loc : Loc) (value : String) (comments : List Comment) (spacing : Spacing)
  | punct (loc : Loc) (value : Char) (comments : List Comment) (spacing : Spacing)
  | int (loc : Loc) (kind : IntKind) (value : Int) (comments : List Comment) (spacing : Spacing)
  | float (loc : Loc) (value : String) (comments : List Comment) (spacing : Spacing)
  | str (loc : Loc) (value : String) (comments : List Comment) (spacing : Spacing)
  | group (loc : Loc) (tokens : List TokenTree) (comments : List Comment) (spacing : Spacing)

/-- The mutable state of a `Lexer` (`lib.rs`, `struct Lexer`): the character
list, the cursor and the pending-comment buffer. -/
structure LexState where
  chars : List Char
  idx : Nat
  comments : List Comment
deriving DecidableEq, Repr

/-- `Lexer::new`: characters of the source, cursor `0`, no comments. -/
def initState (source : String) : LexState :=
  { chars := source.toList, idx := 0, comments := [] }

/-- The result of one embedded scanning routine: the Rust routine's
`Result<α, Diagnostic<()>>` return value paired with the lexer state at the
point of return.  `panic` models an out-of-bounds `Vec<char>` index and
`stuck` marks fuel exhaustion (no Rust counterpart). -/
inductive Step (α : Type) where
  | ok (a : α) (s : LexState)
  | err (d : Diag) (s : LexState)
  | panic
  | stuck

/-- The diagnostic code of an errored `Step`, if any. -/
def Step.diagCode : Step α → Option String
  | .err d _ => some d.code
  | _ => Option.none

/-- `Lexer::is_line_break`. -/
def isLineBreak (c : Char) : Bool :=
  c = '\u000A' ∨ c = '\u000B' ∨ c = '\u000C' ∨ c = '\u000D' ∨
    c = '\u0085' ∨ c = '\u2028' ∨ c = '\u2029'

/-- `Lexer::is_whitespace` (non-line-break whitespace). -/
def isWhitespace (c : Char) : Bool :=
  c = '\u0009' ∨ c = '\u0020' ∨ c = '\u00A0' ∨ c = '\u1680' ∨
    c = '\u2000' ∨ c = '\u2001' ∨ c = '\u2002' ∨ c = '\u2003' ∨
    c = '\u2004' ∨ c = '\u2005' ∨ c = '\u2006' ∨ c = '\u2007' ∨
    c = '\u2008' ∨ c = '\u2009' ∨ c = '\u200A' ∨ c = '\u202F' ∨
    c = '\u205F' ∨ c = '\u3000'

/-- Models `UnicodeXID::is_xid_start` from the external `unicode_xid` crate
(not code of this repository).  Exact on ASCII, which is all the claims
exercise; non-ASCII XID starters are not modelled. -/
def isXidStart (c : Char) : Bool :=
  c.isAlpha

/-- Models `UnicodeXID::is_xid_continue` from the external `unicode_xid`
crate (not code of this repository); exact on ASCII. -/
def isXidContinue (c : Char) : Bool :=
  c.isAlphanum ∨ c = '_'

/-- `Lexer::is_iden`: XID_Start or underscore. -/
def isIden (c : Char) : Bool :=
  isXidStart c ∨ c = '_'

/-- `Lexer::is_punct`: the fixed punctuator set. -/
def isPunct (c : Char) : Bool :=
  c = '!' ∨ c = '@' ∨ c = '#' ∨ c = '$' ∨ c = '%' ∨ c = '&' ∨ c = '*' ∨
    c = ';' ∨ c = ':' ∨ c = ',' ∨ c = '.' ∨ c = '<' ∨ c = '>' ∨ c = '/' ∨
    c = '|' ∨ c = '-' ∨ c = '=' ∨ c = '+' ∨ c = '?' ∨ c = '~'

/-- `Lexer::is_digit`. -/
def isDigit (c : Char) : Bool :=
  '0' ≤ c ∧ c ≤ '9'

/-- `Lexer::is_hex_digit`. -/
def isHexDigit (c : Char) : Bool :=
  ('0' ≤ c ∧ c ≤ '9') ∨ ('a' ≤ c ∧ c ≤ 'f') ∨ ('A' ≤ c ∧ c ≤ 'F')

/-- `Lexer::is_bin_digit`. -/
def isBinDigit (c : Char) : Bool :=
  c = '0' ∨ c = '1'

/-- The single-quote character (`'`), used as a string delimiter. -/
def squote : Char := Char.ofNat 39

/-- Models Rust's `char::is_whitespace` (Unicode `White_Space`), which is
exactly the union of the lexer's whitespace and line-break sets. -/
def isRustWhitespace (c : Char) : Bool :=
  isWhitespace c || isLineBreak c

/-- Models Rust's `str::trim`: removes leading and trailing whitespace. -/
def rustTrim (s : String) : String :=
  String.mk (((s.toList.dropWhile isRustWhitespace).reverse.dropWhile
    isRustWhitespace).reverse)

/-- The value of an ASCII digit in radices up to 16, as Rust's
`char::to_digit` computes it for the characters the lexer feeds it. -/
def charDigitValue (c : Char) : Option Nat :=
  if '0' ≤ c ∧ c ≤ '9' then some (c.toNat - 48)
  else if 'a' ≤ c ∧ c ≤ 'f' then some (c.toNat - 87)
  else if 'A' ≤ c ∧ c ≤ 'F' then some (c.toNat - 55)
  else Option.none

/-- Accumulates the digits of a numeral in the given radix, failing on a
character that is not a digit of that radix. -/
def accDigits (radix : Nat) : List Char → Nat → Option Nat
  | [], acc => some acc
  | c :: rest, acc =>
    match charDigitValue c with
    | some v => if v < radix then accDigits radix rest (acc * radix + v) else Option.none
    | Option.none => Option.none

/-- Models `i64::from_str_radix` (and, at radix 10, `str::parse::<i64>`)
from the Rust standard library (not code of this repository): an optional
`+`/`-` sign, one or more digits of the radix, and an error when the value
overflows the signed 64-bit range. -/
def i64FromStrRadix (radix : Nat) (str : String) : Option Int :=
  let cs := str.toList
  let signed : Bool × List Char :=
    match cs with
    | '-' :: rest => (true, rest)
    | '+' :: rest => (false, rest)
    | _ => (false, cs)
  match signed with
  | (neg, ds) =>
    if ds = [] then Option.none
    else
      match accDigits radix ds 0 with
      | Option.none => Option.none
      | some n =>
        let v : Int := if neg then -(n : Int) else (n : Int)
        if -(2 ^ 63) ≤ v ∧ v ≤ 2 ^ 63 - 1 then some v else Option.none

/-- Splits a character list at the first `e`/`E`, the exponent marker of a
float literal. -/
def splitAtExpMarker : List Char → List Char × Option (List Char)
  | [] => ([], Option.none)
  | c :: rest =>
    if c = 'e' ∨ c = 'E' then ([], some rest)
    else
      match splitAtExpMarker rest with
      | (pre, post) => (c :: pre, post)

/-- Models the acceptance of `str::parse::<f64>` from the Rust standard
library (not code of this repository): an optional sign, then `inf`,
`infinity`, `nan` (case-insensitive) or a mantissa of digits with at most
one `.` and at least one digit, optionally followed by `e`/`E`, an optional
sign and one or more exponent digits.  Only acceptance is modelled; the f64
value itself is not (see the module comment). -/
def f64ParseOk (str : String) : Bool :=
  let cs := str.toList
  let cs :=
    match cs with
    | c :: rest => if c = '+' ∨ c = '-' then rest else c :: rest
    | [] => []
  let lower := cs.map Char.toLower
  if lower = "inf".toList ∨ lower = "infinity".toList ∨ lower = "nan".toList then true
  else
    match splitAtExpMarker cs with
    | (mant, expPart) =>
      let mantOk : Bool := mant.all (fun c => isDigit c ∨ c = '.') &&
        decide (mant.count '.' ≤ 1) && mant.any isDigit
      let expOk : Bool :=
        match expPart with
        | Option.none => true
        | some es =>
          let es :=
            match es with
            | c :: rest => if c = '+' ∨ c = '-' then rest else c :: rest
            | [] => []
          !es.isEmpty && es.all isDigit
      mantOk && expOk

/-- The result of the external `snailquote::unescape` dependency. -/
inductive UnescapeResult where
  | ok (value : String)
  | invalidEscape (index : Nat)
  | invalidUnicode (index : Nat)
deriving DecidableEq, Repr

/-- The opening-brace character. -/
def lbrace : Char := Char.ofNat 123

/-- The closing-brace character. -/
def rbrace : Char := Char.ofNat 125

/-- One backslash escape sequence as `snailquote` decodes it. -/
def decodeEscape (c : Char) : Option Char :=
  if c = 'a' then some (Char.ofNat 7)
  else if c = 'b' then some (Char.ofNat 8)
  else if c = 'v' then some (Char.ofNat 11)
  else if c = 'f' then some (Char.ofNat 12)
  else if c = 'n' then some '\u000A'
  else if c = 'r' then some '\u000D'
  else if c = 't' then some '\u0009'
  else if c = 'e' ∨ c = 'E' then some (Char.ofNat 27)
  else if c = '\\' then some '\\'
  else if c = squote then some squote
  else if c = '"' then some '"'
  else if c = '$' then some '$'
  else if c = '`' then some (Char.ofNat 96)
  else if c = ' ' then some ' '
  else Option.none

/-- Splits a character list at the first closing brace, yielding the
characters before it and the characters after it. -/
def splitAtRBrace : List Char → Option (List Char × List Char)
  | [] => Option.none
  | c :: rest =>
    if c = rbrace then some ([], rest)
    else
      match splitAtRBrace rest with
      | some (pre, post) => some (c :: pre, post)
      | Option.none => Option.none

lemma splitAtRBrace_length_lt {l pre post : List Char}
    (h : splitAtRBrace l = some (pre, post)) : post.length < l.length := by
  induction l generalizing pre post with
  | nil => simp [splitAtRBrace] at h
  | cons c rest ih =>
    simp only [splitAtRBrace] at h
    by_cases hc : c = rbrace
    · rw [if_pos hc] at h
      cases h
      simp
    · rw [if_neg hc] at h
      cases hrec : splitAtRBrace rest with
      | none => rw [hrec] at h; cases h
      | some pr =>
        obtain ⟨pre', post'⟩ := pr
        rw [hrec] at h
        cases h
        have := ih hrec
        simp only [List.length_cons]
        omega

/-- The decoding loop of the external `snailquote::unescape` dependency
(not code of this repository): decodes backslash escapes, reporting the
character index of an invalid escape or an invalid `\u{...}` escape.  No
claim exercises string literals; this model exists so that the driver's
string branch is defined. -/
def unescapeLoop : List Char → Nat → String → UnescapeResult
  | [], _, acc => .ok acc
  | '\\' :: rest, i, acc =>
    (match rest with
     | [] => .invalidEscape i
     | c :: rest' =>
       if c = 'u' then
         match rest' with
         | b :: rest'' =>
           if b = lbrace then
             match hsplit : splitAtRBrace rest'' with
             | Option.none => .invalidUnicode (i + 1)
             | some (hexChars, remain) =>
               match accDigits 16 hexChars 0 with
               | some n =>
                 if n < 1114112 ∧ ¬ (55296 ≤ n ∧ n ≤ 57343) ∧ hexChars ≠ [] then
                   unescapeLoop remain (i + 4 + hexChars.length)
                     (acc.push (Char.ofNat n))
                 else .invalidUnicode (i + 1)
               | Option.none => .invalidUnicode (i + 1)
           else .invalidUnicode (i + 1)
         | [] => .invalidUnicode (i + 1)
       else
         match decodeEscape c with
         | some d => unescapeLoop rest' (i + 2) (acc.push d)
         | Option.none => .invalidEscape (i + 1))
  | c :: rest, i, acc => unescapeLoop rest (i + 1) (acc.push c)
termination_by cs _ _ => cs.length
decreasing_by
  all_goals
    ((try have := splitAtRBrace_length_lt hsplit);
      simp only [List.length_cons]; omega)

/-- Models the external `snailquote::unescape` dependency (not code of this
repository): strips the surrounding quote characters and decodes backslash
escapes. -/
def unescape (str : String) : UnescapeResult :=
  let cs := str.toList
  match cs with
  | q :: rest =>
    if q = '"' ∨ q = squote then
      unescapeLoop (rest.take (rest.length - 1)) 1 ""
    else unescapeLoop cs 0 ""
  | [] => unescapeLoop cs 0 ""

/-- The `while` loop of `Lexer::skip_line_comment`: while the cursor is in
bounds and not at a line feed, increment the cursor and push the character
at the *new* cursor position onto the value (faithful to the source, where
that index can be one past the end of `chars`, a panic). -/
def lineCommentLoop (fuel : Nat) (value : String) (s : LexState) : Step String :=
  match fuel with
  | 0 => .stuck
  | fuel + 1 =>
    match s.chars.get? s.idx with
    | Option.none => .ok value s
    | some c =>
      if c = '\u000A' then .ok value s
      else
        match s.chars.get? (s.idx + 1) with
        | Option.none => .panic
        | some c2 => lineCommentLoop fuel (value.push c2) { s with idx := s.idx + 1 }

/-- `Lexer::skip_line_comment`.  Entered with the cursor just past `//`;
a third `/` marks the comment and advances the cursor; the kind mapping
(`doc = true` gives `Line`, otherwise `Doc`) is the source's. -/
def skipLineComment (fuel : Nat) (s : LexState) : Step Skipped :=
  let startIndex := s.idx - 2
  let docAndS : Bool × LexState :=
    if s.chars.get? s.idx = some '/' then (true, { s with idx := s.idx + 1 })
    else (false, s)
  match docAndS with
  | (doc, s) =>
    match lineCommentLoop fuel "" s with
    | .ok value s' =>
      .ok (.comment
        { loc := (startIndex, s'.idx)
          value := rustTrim value
          kind := if doc then .line else .doc }) s'
    | .err d s' => .err d s'
    | .panic => .panic
    | .stuck => .stuck

/-- The `E0001` diagnostic of `Lexer::skip_block_comment`. -/
def e0001 (atIdx startIndex : Nat) : Diag :=
  { code := "E0001"
    message := "block comment never ends"
    labels :=
      [ { primary := true, loc := (atIdx, atIdx),
          msg := "expected block comment to end here" },
        { primary := false, loc := (startIndex, startIndex + 2),
          msg := "help: block comment started here" } ] }

/-- The `loop` of `Lexer::skip_block_comment`: accumulates content until
`*/`, failing with `E0001` at end of input. -/
def blockCommentLoop (fuel : Nat) (startIndex : Nat) (value : String) (s : LexState) :
    Step String :=
  match fuel with
  | 0 => .stuck
  | fuel + 1 =>
    match s.chars.get? s.idx with
    | Option.none => .err (e0001 s.idx startIndex) s
    | some c =>
      if c = '*' then
        let s₁ : LexState := { s with idx := s.idx + 1 }
        match s₁.chars.get? s₁.idx with
        | Option.none => .err (e0001 s₁.idx startIndex) s₁
        | some c2 =>
          if c2 = '/' then .ok value { s₁ with idx := s₁.idx + 1 }
          else blockCommentLoop fuel startIndex ((value.push '*').push c2)
            { s₁ with idx := s₁.idx + 1 }
      else blockCommentLoop fuel startIndex (value.push c) { s with idx := s.idx + 1 }

/-- `Lexer::skip_block_comment`.  Entered with the cursor just past `/*`. -/
def skipBlockComment (fuel : Nat) (s : LexState) : Step Skipped :=
  let startIndex := s.idx - 2
  match blockCommentLoop fuel startIndex "" s with
  | .ok value s' =>
    .ok (.comment
      { loc := (startIndex, s'.idx), value := rustTrim value, kind := .block }) s'
  | .err d s' => .err d s'
  | .panic => .panic
  | .stuck => .stuck

/-- `Lexer::skip_token`: skips one whitespace character, line break or
comment.  Faithful to the source, the cursor is advanced past both slashes
of a candidate comment before the second character is inspected, so a `/`
followed by anything other than `/` or `*` is skipped over and reported as
`Skipped::None`. -/
def skipToken (fuel : Nat) (s : LexState) : Step Skipped :=
  match s.chars.get? s.idx with
  | Option.none => .ok .none s
  | some firstChar =>
    if isWhitespace firstChar then .ok .whitespace { s with idx := s.idx + 1 }
    else if isLineBreak firstChar then .ok .lineBreak { s with idx := s.idx + 1 }
    else if firstChar = '/' then
      match s.chars.get? (s.idx + 1) with
      | Option.none => .ok .none s
      | some secondChar =>
        let s₁ : LexState := { s with idx := s.idx + 2 }
        if secondChar = '/' then skipLineComment fuel s₁
        else if secondChar = '*' then skipBlockComment fuel s₁
        else .ok .none s₁
    else .ok .none s

/-- `Lexer::skip`: repeatedly skips trivia, buffering comments, until a
non-skippable character or the end of input. -/
def skip (fuel : Nat) (s : LexState) : Step Unit :=
  match fuel with
  | 0 => .stuck
  | fuel + 1 =>
    match skipToken fuel s with
    | .ok (.comment c) s' => skip fuel { s' with comments := s'.comments ++ [c] }
    | .ok .none s' => .ok () s'
    | .ok _ s' => skip fuel s'
    | .err d s' => .err d s'
    | .panic => .panic
    | .stuck => .stuck

/-- The `loop` of `Lexer::spacing`, with the `has_whitespace` flag made an
argument: returns `LineBreak` at the first line break, otherwise classifies
the fully-consumed trivia run. -/
def spacingLoop (fuel : Nat) (hasWhitespace : Bool) (s : LexState) : Step Spacing :=
  match fuel with
  | 0 => .stuck
  | fuel + 1 =>
    match skipToken fuel s with
    | .ok (.comment c) s' =>
      spacingLoop fuel true { s' with comments := s'.comments ++ [c] }
    | .ok .whitespace s' => spacingLoop fuel true s'
    | .ok .lineBreak s' => .ok .lineBreak s'
    | .ok .none s' => .ok (if hasWhitespace then .whitespace else .none) s'
    | .err d s' => .err d s'
    | .panic => .panic
    | .stuck => .stuck

/-- `Lexer::spacing`: the spacing between the just-completed token and the
next. -/
def spacing (fuel : Nat) (s : LexState) : Step Spacing :=
  spacingLoop fuel false s

/-- `Lexer::get_comments`: takes the buffered comments and clears the
buffer. -/
def getComments (s : LexState) : List Comment × LexState :=
  (s.comments, { s with comments := [] })

/-- The `while` loop of `Lexer::tokenize_iden`: pushes XID_Continue
characters and advances. -/
def idenLoop (fuel : Nat) (value : String) (s : LexState) : Step String :=
  match fuel with
  | 0 => .stuck
  | fuel + 1 =>
    match s.chars.get? s.idx with
    | Option.none => .ok value s
    | some c =>
      if isXidContinue c then idenLoop fuel (value.push c) { s with idx := s.idx + 1 }
      else .ok value s

/-- `Lexer::tokenize_iden`. -/
def tokenizeIden (fuel : Nat) (s : LexState) : Step TokenTree :=
  let startIndex := s.idx
  match idenLoop fuel "" s with
  | .ok value s' =>
    match getComments s' with
    | (comments, s₁) =>
      match spacing fuel s₁ with
      | .ok sp s₂ => .ok (.iden (startIndex, s₁.idx) value comments sp) s₂
      | .err d s₂ => .err d s₂
      | .panic => .panic
      | .stuck => .stuck
  | .err d s' => .err d s'
  | .panic => .panic
  | .stuck => .stuck

/-- The `E0008` diagnostic of `Lexer::tokenize_hexadecimal`. -/
def e0008Hex (l : Loc) : Diag :=
  { code := "E0008"
    message := "no hexadecimal number after `0x`"
    labels := [ { primary := true, loc := l, msg := "expected a hexadecimal number here" } ] }

/-- The `E0008` diagnostic of `Lexer::tokenize_binary`. -/
def e0008Bin (l : Loc) : Diag :=
  { code := "E0008"
    message := "no binary number after `0b`"
    labels := [ { primary := true, loc := l, msg := "expected a binary number here" } ] }

/-- The `E0009` diagnostic shared by `Lexer::tokenize_hexadecimal` and
`Lexer::tokenize_binary` (the binary scanner reuses the hexadecimal
wording, faithful to the source). -/
def e0009 (l : Loc) : Diag :=
  { code := "E0009"
    message := "hexadecimal number is too large."
    labels := [ { primary := true, loc := l, msg := "hexadecimal number is too large" } ] }

/-- The `loop` of `Lexer::tokenize_hexadecimal`.  Faithful to the source:
the loop's first test is `self.idx < self.chars.len()` (where the
surrounding code clearly means `>=`), which errors with `E0008` whenever
input remains and `first` still holds; when no input remains the loop body
indexes `chars[self.idx]` out of bounds. -/
def hexLoop (fuel : Nat) (first : Bool) (number : String) (startIndex : Nat)
    (s : LexState) : Step String :=
  match fuel with
  | 0 => .stuck
  | fuel + 1 =>
    if s.idx < s.chars.length then
      if first then .err (e0008Hex (startIndex, s.idx - 1)) s else .ok number s
    else
      match s.chars.get? s.idx with
      | Option.none => .panic
      | some c =>
        if ¬ isHexDigit c then
          if first then .err (e0008Hex (startIndex, s.idx - 1)) s else .ok number s
        else
          match s.chars.get? (s.idx + 1) with
          | Option.none => .panic
          | some c2 =>
            hexLoop fuel false (number.push c2) startIndex { s with idx := s.idx + 1 }

/-- The `loop` of `Lexer::tokenize_binary`, with the same inverted bound
test as the hexadecimal loop. -/
def binLoop (fuel : Nat) (first : Bool) (number : String) (startIndex : Nat)
    (s : LexState) : Step String :=
  match fuel with
  | 0 => .stuck
  | fuel + 1 =>
    if s.idx < s.chars.length then
      if first then .err (e0008Bin (startIndex, s.idx - 1)) s else .ok number s
    else
      match s.chars.get? s.idx with
      | Option.none => .panic
      | some c =>
        if ¬ isBinDigit c then
          if first then .err (e0008Bin (startIndex, s.idx - 1)) s else .ok number s
        else
          match s.chars.get? (s.idx + 1) with
          | Option.none => .panic
          | some c2 =>
            binLoop fuel false (number.push c2) startIndex { s with idx := s.idx + 1 }

/-- `Lexer::tokenize_hexadecimal`.  Entered with the cursor just past
`0x`. -/
def tokenizeHexadecimal (fuel : Nat) (s : LexState) : Step TokenTree :=
  let startIndex := s.idx - 2
  if s.idx ≥ s.chars.length then .err (e0008Hex (startIndex, s.idx)) s
  else
    match hexLoop fuel true "" startIndex s with
    | .ok number s' =>
      match i64FromStrRadix 16 number with
      | some value =>
        match getComments s' with
        | (comments, s₁) =>
          match spacing fuel s₁ with
          | .ok sp s₂ => .ok (.int (startIndex, s₁.idx) .hexadecimal value comments sp) s₂
          | .err d s₂ => .err d s₂
          | .panic => .panic
          | .stuck => .stuck
      | Option.none => .err (e0009 (startIndex, s'.idx)) s'
    | .err d s' => .err d s'
    | .panic => .panic
    | .stuck => .stuck

/-- `Lexer::tokenize_binary`.  Entered with the cursor just past `0b`. -/
def tokenizeBinary (fuel : Nat) (s : LexState) : Step TokenTree :=
  let startIndex := s.idx - 2
  if s.idx ≥ s.chars.length then .err (e0008Bin (startIndex, s.idx)) s
  else
    match binLoop fuel true "" startIndex s with
    | .ok number s' =>
      match i64FromStrRadix 2 number with
      | some value =>
        match getComments s' with
        | (comments, s₁) =>
          match spacing fuel s₁ with
          | .ok sp s₂ => .ok (.int (startIndex, s₁.idx) .binary value comments sp) s₂
          | .err d s₂ => .err d s₂
          | .panic => .panic
          | .stuck => .stuck
      | Option.none => .err (e0009 (startIndex, s'.idx)) s'
    | .err d s' => .err d s'
    | .panic => .panic
    | .stuck => .stuck

/-- The `E0002` diagnostic of `Lexer::tokenize_number` (built after the
cursor was advanced past the exponent marker). -/
def e0002 (startIndex endIdx : Nat) : Diag :=
  { code := "E0002"
    message := "exponent after `.`"
    labels :=
      [ { primary := true, loc := (startIndex, endIdx),
          msg := "exponent cannot immediately follow `.`" },
        { primary := false, loc := (endIdx - 2, endIdx - 2),
          msg := "try inserting a `0` after this `.`" } ] }

/-- The `E0003` diagnostic of `Lexer::tokenize_number`. -/
def e0003 (startIndex endIdx : Nat) : Diag :=
  { code := "E0003"
    message := "exponent after `.`"
    labels :=
      [ { primary := true, loc := (startIndex, endIdx),
          msg := "integers may not have an exponent" } ] }

/-- The `E0004` diagnostic of `Lexer::tokenize_number`; the label message
differs between the two sites that build it. -/
def e0004 (startIndex endIdx : Nat) (labelMsg : String) : Diag :=
  { code := "E0004"
    message := "expected an exponent value"
    labels := [ { primary := true, loc := (startIndex, endIdx), msg := labelMsg } ] }

/-- The `E0005` diagnostic of `Lexer::tokenize_number`. -/
def e0005 (startIndex endIdx : Nat) : Diag :=
  { code := "E0005"
    message := "expected a valid exponent value"
    labels :=
      [ { primary := true, loc := (startIndex, endIdx),
          msg := "expected a valid exponent value (a number)" } ] }

/-- The `E0006` diagnostic of `Lexer::tokenize_number`. -/
def e0006 (l : Loc) : Diag :=
  { code := "E0006"
    message := "float is too large"
    labels := [ { primary := true, loc := l, msg := "float number is too large" } ] }

/-- The `E0007` diagnostic of `Lexer::tokenize_number`. -/
def e0007 (l : Loc) : Diag :=
  { code := "E0007"
    message := "integer is too large"
    labels := [ { primary := true, loc := l, msg := "integer number is too large" } ] }

/-- The inner exponent-digit `loop` of `Lexer::tokenize_number`.  Faithful
to the source, the caller initializes `first` to `false` (never `true`), so
the `E0004`/`E0005` returns inside this loop are unreachable and an empty
exponent falls through to the final value parse.  Both normal exits are
`break 'main_number_loop`. -/
def expLoop (fuel : Nat) (first : Bool) (number : String) (startIndex : Nat)
    (s : LexState) : Step String :=
  match fuel with
  | 0 => .stuck
  | fuel + 1 =>
    if s.idx ≥ s.chars.length then
      if first then .err (e0004 startIndex s.idx "expected an exponent value") s
      else .ok number s
    else
      match s.chars.get? s.idx with
      | Option.none => .panic
      | some c =>
        if ¬ isDigit c then
          if first then .err (e0005 startIndex s.idx) s else .ok number s
        else expLoop fuel false (number.push c) startIndex { s with idx := s.idx + 1 }

/-- The `'main_number_loop` of `Lexer::tokenize_number`: accumulates
digits, promotes to float on the first `.`, stops on a second `.` or any
unrecognized character, and handles the exponent marker. -/
def mainNumberLoop (fuel : Nat) (isFloat : Bool) (number : String) (startIndex : Nat)
    (s : LexState) : Step (String × Bool) :=
  match fuel with
  | 0 => .stuck
  | fuel + 1 =>
    match s.chars.get? s.idx with
    | Option.none => .ok (number, isFloat) s
    | some c =>
      if isDigit c then
        mainNumberLoop fuel isFloat (number.push c) startIndex { s with idx := s.idx + 1 }
      else if c = '.' then
        if isFloat then .ok (number, isFloat) s
        else mainNumberLoop fuel true (number.push '.') startIndex { s with idx := s.idx + 1 }
      else if c = 'e' ∨ c = 'E' then
        if ¬ isFloat then .err (e0003 startIndex s.idx) s
        else
          match s.chars.get? (s.idx - 1) with
          | Option.none => .panic
          | some prev =>
            if prev = '.' then .err (e0002 startIndex (s.idx + 1)) { s with idx := s.idx + 1 }
            else
              let number₁ := number.push c
              let s₁ : LexState := { s with idx := s.idx + 1 }
              if s₁.idx ≥ s₁.chars.length then
                .err (e0004 startIndex s₁.idx "expected an exponent value or `+`/`-`") s₁
              else
                match s₁.chars.get? s₁.idx with
                | Option.none => .panic
                | some c2 =>
                  let signStep : String × LexState :=
                    if c2 = '+' ∨ c2 = '-' then (number₁.push c2, { s₁ with idx := s₁.idx + 1 })
                    else (number₁, s₁)
                  match signStep with
                  | (number₂, s₂) =>
                    match expLoop fuel false number₂ startIndex s₂ with
                    | .ok number₃ s₃ => .ok (number₃, true) s₃
                    | .err d s₃ => .err d s₃
                    | .panic => .panic
                    | .stuck => .stuck
      else .ok (number, isFloat) s

/-- Models `number.replace("_", "")` from `Lexer::tokenize_number`. -/
def stripUnderscores (number : String) : String :=
  String.mk (number.toList.filter (fun c => c ≠ '_'))

/-- The code after `'main_number_loop` in `Lexer::tokenize_number`: takes
the buffered comments, strips underscores and parses the accumulated
numeral as a float (`E0006` on failure) or an `i64` (`E0007` on
failure). -/
def finishNumber (fuel : Nat) (startIndex : Nat) (number : String) (isFloat : Bool)
    (s : LexState) : Step TokenTree :=
  match getComments s with
  | (comments, s₁) =>
    let number := stripUnderscores number
    if isFloat then
      if f64ParseOk number then
        match spacing fuel s₁ with
        | .ok sp s₂ => .ok (.float (startIndex, s₁.idx) number comments sp) s₂
        | .err d s₂ => .err d s₂
        | .panic => .panic
        | .stuck => .stuck
      else .err (e0006 (startIndex, s₁.idx)) s₁
    else
      match i64FromStrRadix 10 number with
      | some value =>
        match spacing fuel s₁ with
        | .ok sp s₂ => .ok (.int (startIndex, s₁.idx) .decimal value comments sp) s₂
        | .err d s₂ => .err d s₂
        | .panic => .panic
        | .stuck => .stuck
      | Option.none => .err (e0007 (startIndex, s₁.idx)) s₁

/-- `Lexer::tokenize_number`: radix dispatch on a leading `0`, otherwise
the decimal/float path.  The early return for a lone `0` at the end of
input builds its `Int` *without* advancing the cursor (faithful to the
source); its value is `-0` or `0`, both `0`. -/
def tokenizeNumber (fuel : Nat) (negative : Bool) (s : LexState) : Step TokenTree :=
  let number : String := if negative then "-" else ""
  match s.chars.get? s.idx with
  | Option.none => .panic
  | some firstChar =>
    let startIndex := s.idx
    if firstChar = '0' then
      if s.idx + 1 ≥ s.chars.length then
        match getComments s with
        | (comments, s₁) =>
          match spacing fuel s₁ with
          | .ok sp s₂ => .ok (.int (startIndex, s₁.idx) .decimal 0 comments sp) s₂
          | .err d s₂ => .err d s₂
          | .panic => .panic
          | .stuck => .stuck
      else
        match s.chars.get? (s.idx + 1) with
        | Option.none => .panic
        | some c1 =>
          if c1 = 'x' then tokenizeHexadecimal fuel { s with idx := s.idx + 2 }
          else if c1 = 'b' then tokenizeBinary fuel { s with idx := s.idx + 2 }
          else
            match mainNumberLoop fuel false (number.push '0') startIndex
                { s with idx := s.idx + 1 } with
            | .ok (number', isFloat) s' => finishNumber fuel startIndex number' isFloat s'
            | .err d s' => .err d s'
            | .panic => .panic
            | .stuck => .stuck
    else
      match mainNumberLoop fuel false number startIndex s with
      | .ok (number', isFloat) s' => finishNumber fuel startIndex number' isFloat s'
      | .err d s' => .err d s'
      | .panic => .panic
      | .stuck => .stuck

/-- The `E0010` diagnostic of `Lexer::tokenize_string`. -/
def e0010 (l : Loc) : Diag :=
  { code := "E0010"
    message := "string never closes"
    labels := [ { primary := true, loc := l, msg := "string never closes" } ] }

/-- The `E0011` diagnostic of `Lexer::tokenize_string`. -/
def e0011 (atIdx : Nat) : Diag :=
  { code := "E0011"
    message := "invalid string escape"
    labels := [ { primary := true, loc := (atIdx, atIdx), msg := "invalid string escape here" } ] }

/-- The `E0012` diagnostic of `Lexer::tokenize_string`. -/
def e0012 (atIdx : Nat) : Diag :=
  { code := "E0012"
    message := "invalid unicode escape in string"
    labels := [ { primary := true, loc := (atIdx, atIdx), msg := "invalid unicode escape here" } ] }

/-- The `loop` of `Lexer::tokenize_string`: accumulates raw content
(including backslash pairs verbatim) until the opening quote character
recurs, failing with `E0010` at end of input. -/
def stringLoop (fuel : Nat) (quote : Char) (startIndex : Nat) (acc : String)
    (s : LexState) : Step String :=
  match fuel with
  | 0 => .stuck
  | fuel + 1 =>
    match s.chars.get? s.idx with
    | Option.none => .err (e0010 (startIndex, s.idx)) s
    | some c =>
      if c = quote then .ok (acc.push quote) { s with idx := s.idx + 1 }
      else if c = '\\' then
        let acc₁ := acc.push '\\'
        let s₁ : LexState := { s with idx := s.idx + 1 }
        match s₁.chars.get? s₁.idx with
        | Option.none => .err (e0010 (startIndex, s₁.idx)) s₁
        | some c2 => stringLoop fuel quote startIndex (acc₁.push c2) { s₁ with idx := s₁.idx + 1 }
      else stringLoop fuel quote startIndex (acc.push c) { s with idx := s.idx + 1 }

/-- `Lexer::tokenize_string`. -/
def tokenizeString (fuel : Nat) (s : LexState) : Step TokenTree :=
  let startIndex := s.idx
  match s.chars.get? startIndex with
  | Option.none => .panic
  | some quote =>
    match stringLoop fuel quote startIndex (String.singleton quote)
        { s with idx := s.idx + 1 } with
    | .ok raw s' =>
      match unescape raw with
      | .ok value =>
        match getComments s' with
        | (comments, s₁) =>
          match spacing fuel s₁ with
          | .ok sp s₂ => .ok (.str (startIndex, s₁.idx) value comments sp) s₂
          | .err d s₂ => .err d s₂
          | .panic => .panic
          | .stuck => .stuck
      | .invalidEscape i => .err (e0011 (startIndex + i)) s'
      | .invalidUnicode i => .err (e0012 (startIndex + i)) s'
    | .err d s' => .err d s'
    | .panic => .panic
    | .stuck => .stuck

/-- The `E0013` diagnostic of `Lexer::tokenize`. -/
def e0013 (startIndex : Nat) : Diag :=
  { code := "E0013"
    message := "invalid character"
    labels := [ { primary := true, loc := (startIndex, startIndex), msg := "invalid character here" } ] }

/-- The `E0014` diagnostic of `Lexer::tokenize_group`; its primary label
message interpolates the expected closing character. -/
def e0014 (close : Char) (startIndex endIdx : Nat) : Diag :=
  { code := "E0014"
    message := "group never ends"
    labels :=
      [ { primary := true, loc := (startIndex, endIdx),
          msg := "group never closes with " ++ String.singleton squote ++
            String.singleton close ++ String.singleton squote },
        { primary := false, loc := (startIndex, startIndex),
          msg := "group starts here" } ] }

/-- The result of one pull of the lexer (`Lexer::tokenize`, which
`Iterator::next` forwards to): Rust's `Option<Result<TokenTree,
Diagnostic<()>>>` paired with the lexer state at the point of return.
`eos` is Rust's `None` (end of sequence), `panic` an out-of-bounds index
and `stuck` fuel exhaustion. -/
inductive PullResult where
  | tok (t : TokenTree) (s : LexState)
  | diag (d : Diag) (s : LexState)
  | eos (s : LexState)
  | panic
  | stuck

/-- Lifts a scanning routine's `Step` into a pull result. -/
def liftStep : Step TokenTree → PullResult
  | .ok t s => .tok t s
  | .err d s => .diag d s
  | .panic => .panic
  | .stuck => .stuck

mutual

/-- `Lexer::tokenize_group`: records the group start, advances past the
opening delimiter and scans children until the matching closer. -/
def tokenizeGroup (fuel : Nat) (close : Char) (s : LexState) : Step TokenTree :=
  match fuel with
  | 0 => .stuck
  | fuel + 1 => groupLoop fuel close s.idx [] { s with idx := s.idx + 1 }

/-- The `loop` of `Lexer::tokenize_group`: ends the group at the single
character matching the opening delimiter, recursively invoking the driver
for anything else; `E0014` at end of input. -/
def groupLoop (fuel : Nat) (close : Char) (startIndex : Nat)
    (tokens : List TokenTree) (s : LexState) : Step TokenTree :=
  match fuel with
  | 0 => .stuck
  | fuel + 1 =>
    match s.chars.get? s.idx with
    | Option.none => .err (e0014 close startIndex s.idx) s
    | some c =>
      if c = close then
        let s' : LexState := { s with idx := s.idx + 1 }
        match getComments s' with
        | (comments, s₁) =>
          match spacing fuel s₁ with
          | .ok sp s₂ => .ok (.group (startIndex, s₁.idx) tokens comments sp) s₂
          | .err d s₂ => .err d s₂
          | .panic => .panic
          | .stuck => .stuck
      else
        match tokenize fuel s with
        | .tok t s' => groupLoop fuel close startIndex (tokens ++ [t]) s'
        | .diag d s' => .err d s'
        | .eos s' => groupLoop fuel close startIndex tokens s'
        | .panic => .panic
        | .stuck => .stuck

/-- `Lexer::tokenize`: one pull of the lexer.  Skips trivia (buffering
comments), returns `eos` at end of input, otherwise dispatches on the
lookahead character: identifier, punctuator (fusing `-` into a following
numeric literal), number, string, group, or `E0013`. -/
def tokenize (fuel : Nat) (s : LexState) : PullResult :=
  match fuel with
  | 0 => .stuck
  | fuel + 1 =>
    match skip fuel s with
    | .err d s' => .diag d s'
    | .panic => .panic
    | .stuck => .stuck
    | .ok _ s' =>
      if s'.idx ≥ s'.chars.length then .eos s'
      else
        match s'.chars.get? s'.idx with
        | Option.none => .panic
        | some firstChar =>
          let startIndex := s'.idx
          if isIden firstChar then liftStep (tokenizeIden fuel s')
          else if isPunct firstChar then
            let s₁ : LexState := { s' with idx := s'.idx + 1 }
            let nextIsDigit : Bool :=
              match s₁.chars.get? s₁.idx with
              | some d => isDigit d
              | Option.none => false
            if firstChar = '-' ∧ nextIsDigit then
              liftStep (tokenizeNumber fuel true s₁)
            else
              match getComments s₁ with
              | (comments, s₂) =>
                match spacing fuel s₂ with
                | .ok sp s₃ => .tok (.punct (startIndex, s₂.idx) firstChar comments sp) s₃
                | .err d s₃ => .diag d s₃
                | .panic => .panic
                | .stuck => .stuck
          else if isDigit firstChar then liftStep (tokenizeNumber fuel false s')
          else if firstChar = '"' ∨ firstChar = squote then
            liftStep (tokenizeString fuel s')
          else if firstChar = '{' then liftStep (tokenizeGroup fuel rbrace s')
          else if firstChar = '[' then liftStep (tokenizeGroup fuel ']' s')
          else if firstChar = '(' then liftStep (tokenizeGroup fuel ')' s')
          else .diag (e0013 startIndex) s'

end

/-- `n` successive pulls of the lexer, as a caller iterating
`Iterator::next` would perform them; the state returned by each pull feeds
the next one.  Rust callers may keep calling `next` after an `Err` or
`None` item (the iterator is not fused), so the iteration continues
through `diag` and `eos` results. -/
def pulls (fuel : Nat) : Nat → LexState → List PullResult
  | 0, _ => []
  | n + 1, s =>
    let r := tokenize fuel s
    r ::
      (match r with
       | .tok _ s' => pulls fuel n s'
       | .diag _ s' => pulls fuel n s'
       | .eos s' => pulls fuel n s'
       | .panic => []
       | .stuck => [])

/-- The observable kind of a pull result: a token, a diagnostic identified
by its code, end of sequence, a panic, or fuel exhaustion. -/
inductive PullKind where
  | token
  | diag (code : String)
  | eos
  | panic
  | stuck
deriving DecidableEq, Repr

/-- Projects a pull result to its kind. -/
def PullResult.kind : PullResult → PullKind
  | .tok _ _ => .token
  | .diag d _ => .diag d.code
  | .eos _ => .eos
  | .panic => .panic
  | .stuck => .stuck

/-- The sequence of trivia units from a position: iterates `skip_token`
(buffering comments exactly as `Lexer::spacing` does) until it reports
`Skipped::None`, fails, panics or runs out of fuel.  This is the trivia
standing between the current position and the next real token. -/
def triviaUnits (fuel : Nat) (s : LexState) : List Skipped :=
  match fuel with
  | 0 => []
  | fuel + 1 =>
    match skipToken fuel s with
    | .ok (.comment c) s' =>
      .comment c :: triviaUnits fuel { s' with comments := s'.comments ++ [c] }
    | .ok .whitespace s' => .whitespace :: triviaUnits fuel s'
    | .ok .lineBreak s' => .lineBreak :: triviaUnits fuel s'
    | .ok .none _ => []
    | .err _ _ => []
    | .panic => []
    | .stuck => []

/-- Whether the lexer's own trivia skipper (`Lexer::skip`) consumes the
whole of `txt` without error: the test for `txt` being pure trivia. -/
def consumesAllAsTrivia (fuel : Nat) (txt : String) : Bool :=
  match skip fuel (initState txt) with
  | .ok _ s' => s'.chars.length ≤ s'.idx
  | _ => false

/-- Whether a token is a numeric literal (`Int` or `Float`). -/
def TokenTree.isNumeric : TokenTree → Bool
  | .int _ _ _ _ _ => true
  | .float _ _ _ _ => true
  | _ => false

lemma liftStep_ne_eos (st : Step TokenTree) (s : LexState) : liftStep st ≠ .eos s := by
  cases st <;> simp [liftStep]

lemma tokenize_eos_inv {fuel : Nat} {s s' : LexState} (h : tokenize fuel s = .eos s') :
    s'.chars.length ≤ s'.idx := by
  cases fuel with
  | zero => simp [tokenize] at h
  | succ f =>
    simp only [tokenize] at h
    split at h
    · exact absurd h (by simp)
    · exact absurd h (by simp)
    · exact absurd h (by simp)
    · split at h
      · cases h
        omega
      · split at h
        · exact absurd h (by simp)
        · split at h
          · exact absurd h (liftStep_ne_eos _ _)
          · split at h
            · split at h
              · exact absurd h (liftStep_ne_eos _ _)
              · split at h <;> simp_all
            · split at h
              · exact absurd h (liftStep_ne_eos _ _)
              · split at h
                · exact absurd h (liftStep_ne_eos _ _)
                · split at h
                  · exact absurd h (liftStep_ne_eos _ _)
                  · split at h
                    · exact absurd h (liftStep_ne_eos _ _)
                    · split at h
                      · exact absurd h (liftStep_ne_eos _ _)
                      · exact absurd h (by simp)

lemma tokenize_eos_stable {s : LexState} (fuel : Nat) (hend : s.chars.length ≤ s.idx) :
    tokenize (fuel + 2) s = .eos s := by
  have hget : s.chars[s.idx]? = (Option.none : Option Char) :=
    List.getElem?_eq_none hend
  simp [tokenize, skip, skipToken, hget, hend]

lemma tokenizeHexadecimal_diagCode (fuel : Nat) (s : LexState) :
    Step.diagCode (tokenizeHexadecimal (fuel + 1) s) = some "E0008" := by
  by_cases hend : s.chars.length ≤ s.idx
  · simp [tokenizeHexadecimal, hend, Step.diagCode, e0008Hex]
  · have hlt : s.idx < s.chars.length := by omega
    simp [tokenizeHexadecimal, hexLoop, hlt, Step.diagCode, e0008Hex,
      show ¬ s.chars.length ≤ s.idx from hend]

lemma tokenizeBinary_diagCode (fuel : Nat) (s : LexState) :
    Step.diagCode (tokenizeBinary (fuel + 1) s) = some "E0008" := by
  by_cases hend : s.chars.length ≤ s.idx
  · simp [tokenizeBinary, hend, Step.diagCode, e0008Bin]
  · have hlt : s.idx < s.chars.length := by omega
    simp [tokenizeBinary, binLoop, hlt, Step.diagCode, e0008Bin,
      show ¬ s.chars.length ≤ s.idx from hend]

lemma tokenizeHexadecimal_ne_ok (fuel : Nat) (s : LexState) (t : TokenTree)
    (s' : LexState) : tokenizeHexadecimal fuel s ≠ .ok t s' := by
  cases fuel with
  | zero =>
    by_cases hend : s.chars.length ≤ s.idx
    · simp [tokenizeHexadecimal, hend]
    · have hlt : s.idx < s.chars.length := by omega
      simp [tokenizeHexadecimal, hexLoop, hlt, show ¬ s.chars.length ≤ s.idx from hend]
  | succ f =>
    intro h
    have := tokenizeHexadecimal_diagCode f s
    rw [h] at this
    simp [Step.diagCode] at this

lemma tokenizeBinary_ne_ok (fuel : Nat) (s : LexState) (t : TokenTree)
    (s' : LexState) : tokenizeBinary fuel s ≠ .ok t s' := by
  cases fuel with
  | zero =>
    by_cases hend : s.chars.length ≤ s.idx
    · simp [tokenizeBinary, hend]
    · have hlt : s.idx < s.chars.length := by omega
      simp [tokenizeBinary, binLoop, hlt, show ¬ s.chars.length ≤ s.idx from hend]
  | succ f =>
    intro h
    have := tokenizeBinary_diagCode f s
    rw [h] at this
    simp [Step.diagCode] at this

lemma expLoop_false_ne_err (fuel : Nat) :
    ∀ (number : String) (startIndex : Nat) (s : LexState) (d : Diag) (s' : LexState),
      expLoop fuel false number startIndex s ≠ .err d s' := by
  induction fuel with
  | zero => intro number startIndex s d s'; simp [expLoop]
  | succ f ih =>
    intro number startIndex s d s'
    simp only [expLoop]
    split
    · simp
    · split
      · simp
      · split
        · simp
        · exact ih _ _ _ _ _

lemma finishNumber_ok_numeric {fuel startIndex : Nat} {number : String} {isFloat : Bool}
    {s : LexState} {t : TokenTree} {s' : LexState}
    (h : finishNumber fuel startIndex number isFloat s = .ok t s') :
    t.isNumeric = true := by
  simp only [finishNumber] at h
  split at h
  · split at h
    · split at h
      · cases h
        rfl
      · cases h
      · cases h
      · cases h
    · cases h
  · split at h
    · split at h
      · cases h
        rfl
      · cases h
      · cases h
      · cases h
    · cases h

lemma tokenizeNumber_ok_numeric {fuel : Nat} {negative : Bool} {s : LexState}
    {t : TokenTree} {s' : LexState}
    (h : tokenizeNumber fuel negative s = .ok t s') : t.isNumeric = true := by
  simp only [tokenizeNumber] at h
  split at h
  · cases h
  · split at h
    · split at h
      · split at h
        · cases h
          rfl
        · cases h
        · cases h
        · cases h
      · split at h
        · cases h
        · split at h
          · exact absurd h (tokenizeHexadecimal_ne_ok _ _ _ _)
          · split at h
            · exact absurd h (tokenizeBinary_ne_ok _ _ _ _)
            · split at h
              · exact finishNumber_ok_numeric h
              · cases h
              · cases h
              · cases h
    · split at h
      · exact finishNumber_ok_numeric h
      · cases h
      · cases h
      · cases h

lemma spacingLoop_characterization (fuel : Nat) :
    ∀ (b : Bool) (s s' : LexState) (sp : Spacing),
      spacingLoop fuel b s = .ok sp s' →
      ((sp = .lineBreak ↔ Skipped.lineBreak ∈ triviaUnits fuel s) ∧
       (sp = .whitespace ↔ (Skipped.lineBreak ∉ triviaUnits fuel s ∧
         (b = true ∨ triviaUnits fuel s ≠ []))) ∧
       (sp = .none ↔ (b = false ∧ triviaUnits fuel s = []))) := by
  induction fuel with
  | zero =>
    intro b s s' sp h
    simp [spacingLoop] at h
  | succ f ih =>
    intro b s s' sp h
    simp only [spacingLoop] at h
    simp only [triviaUnits]
    cases hst : skipToken f s with
    | ok u s₁ =>
      rw [hst] at h
      cases u with
      | comment c =>
        simp only at h
        obtain ⟨ih1, ih2, ih3⟩ := ih true _ _ _ h
        refine ⟨?_, ?_, ?_⟩
        · simp [ih1]
        · simp [ih2]
        · simp [ih3]
      | whitespace =>
        simp only at h
        obtain ⟨ih1, ih2, ih3⟩ := ih true _ _ _ h
        refine ⟨?_, ?_, ?_⟩
        · simp [ih1]
        · simp [ih2]
        · simp [ih3]
      | lineBreak =>
        simp only at h
        cases h
        refine ⟨?_, ?_, ?_⟩ <;> simp
      | none =>
        simp only at h
        cases h
        cases b <;> refine ⟨?_, ?_, ?_⟩ <;> simp
    | err d s₁ => rw [hst] at h; cases h
    | panic => rw [hst] at h; cases h
    | stuck => rw [hst] at h; cases h

/-- C1: the claim states that tokenizing a hexadecimal or binary literal
with at least one digit after its prefix yields an `Int` token (`"0x1F"` →
`Int(31, Hexadecimal)`, `"0b101"` → `Int(5, Binary)`) and that `"0x"`
yields `E0008`.  In fact `tokenize_hexadecimal` and `tokenize_binary`
return an `E0008` diagnostic for *every* input and fuel (their loop tests
`idx < len` where `idx >= len` is meant), so `"0x1F"` and `"0b101"` also
lex to `E0008`; only the `"0x"` part of the claim holds. -/
theorem c1_hex_binary_literals_always_E0008 :
    (∀ (fuel : Nat) (s : LexState),
      Step.diagCode (tokenizeHexadecimal (fuel + 1) s) = some "E0008") ∧
    (∀ (fuel : Nat) (s : LexState),
      Step.diagCode (tokenizeBinary (fuel + 1) s) = some "E0008") ∧
    (pulls 100 1 (initState "0x1F")).map PullResult.kind = [.diag "E0008"] ∧
    (pulls 100 1 (initState "0b101")).map PullResult.kind = [.diag "E0008"] ∧
    (pulls 100 1 (initState "0x")).map PullResult.kind = [.diag "E0008"] :=
  ⟨tokenizeHexadecimal_diagCode, tokenizeBinary_diagCode, rfl, rfl, rfl⟩

/-- C2 (amended): once a pull yields nothing (end of input, Rust `None`),
every further pull with any fuel again yields nothing with the state
unchanged.  The half of the claim about pulls after a `Diagnostic` is
false, see the counterexample. -/
theorem c2_no_results_after_done (fuel fuel' : Nat) (s s' : LexState)
    (h : tokenize fuel s = .eos s') : tokenize (fuel' + 2) s' = .eos s' :=
  tokenize_eos_stable fuel' (tokenize_eos_inv h)

theorem c2_no_results_after_done_witness :
    tokenize 100 (initState "") = .eos (initState "") ∧
    tokenize 12 (initState "") = .eos (initState "") :=
  ⟨rfl, c2_no_results_after_done 100 10 (initState "") (initState "") rfl⟩

/-- C2 (counterexample): on `"0xa"` the first pull yields an `E0008`
diagnostic, yet the second pull yields the token `Iden("a")` — the lexer
keeps its cursor and is not fused, so results do continue after the first
`Diagnostic`, contradicting the claim. -/
theorem c2_counterexample_pull_after_diag_yields_token :
    pulls 100 2 (initState "0xa") =
      [.diag (e0008Hex (0, 1)) ⟨"0xa".toList, 2, []⟩,
       .tok (.iden (2, 3) "a" [] .none) ⟨"0xa".toList, 3, []⟩] := rfl

/-- C3: the claim states the result sequence is finite because each
successful pull strictly advances the cursor.  On the single character
`"0"` the early return of `tokenize_number` builds its `Int` token without
advancing the cursor, so the pull returns the very same state and every
number of pulls yields the same `Int(0)` token again — the sequence never
reaches end of input. -/
theorem c3_pull_on_zero_never_advances :
    ∀ n : Nat, pulls 100 n (initState "0") =
      List.replicate n (.tok (.int (0, 0) .decimal 0 [] .none) (initState "0")) := by
  intro n
  induction n with
  | zero => rfl
  | succ n ih =>
    have h1 : tokenize 100 (initState "0") =
        .tok (.int (0, 0) .decimal 0 [] .none) (initState "0") := rfl
    simp only [pulls, h1, ih, List.replicate]

/-- C4: the claim states every pull returns a result without any
out-of-bounds indexing, naming `"// abc"` (a line comment with no
terminating newline).  In fact `skip_line_comment` increments the cursor
and then pushes `chars[idx]`, which on that input reads one past the end
of the character vector — a panic, not a result. -/
theorem c4_line_comment_at_eof_out_of_bounds :
    skipToken 100 (initState "// abc") = .panic ∧
    tokenize 100 (initState "// abc") = .panic := ⟨rfl, rfl⟩

/-- C5: the claim states that spans plus the trivia gaps between them
reconstruct the source exactly for every input that lexes without error.
`"-5"` lexes without error to the single token `Int(-5)` with span (1, 2):
the span covers only `"5"`, and the gap character `-` at index 0 is not
trivia (the lexer's own skipper consumes none of `"-"`), so the
reconstruction from spans and trivia gaps omits the sign. -/
theorem c5_fused_negative_span_excludes_sign :
    pulls 100 2 (initState "-5") =
      [.tok (.int (1, 2) .decimal (-5) [] .none) ⟨"-5".toList, 2, []⟩,
       .eos ⟨"-5".toList, 2, []⟩] ∧
    (initState "-5").chars.get? 0 = some '-' ∧
    consumesAllAsTrivia 100 "-" = false := ⟨rfl, rfl, rfl⟩

/-- C6: whenever the character after trivia skipping is `-` and the
character immediately after it is a decimal digit, the driver dispatches
to the number scanner with the sign fused in (never building a `Punct`):
the pull equals `tokenize_number(negative = true)` from just past the `-`,
and any token it produces is a numeric literal. -/
theorem c6_minus_digit_fuses_into_number (fuel : Nat) (s s' : LexState) (c : Char)
    (hskip : skip fuel s = .ok () s')
    (hminus : s'.chars.get? s'.idx = some '-')
    (hnext : s'.chars.get? (s'.idx + 1) = some c)
    (hdigit : isDigit c = true) :
    tokenize (fuel + 1) s =
      liftStep (tokenizeNumber fuel true { s' with idx := s'.idx + 1 }) ∧
    (∀ (t : TokenTree) (s'' : LexState),
      tokenize (fuel + 1) s = .tok t s'' → t.isNumeric = true) := by
  have hlt : s'.idx < s'.chars.length := by
    have := List.get?_eq_some.mp hminus
    exact this.1
  have hIden : isIden '-' = false := by decide
  have hPunct : isPunct '-' = true := by decide
  have hnextElem : s'.chars[s'.idx + 1]? = some c := by
    rw [← List.get?_eq_getElem?]
    exact hnext
  have hmain : tokenize (fuel + 1) s =
      liftStep (tokenizeNumber fuel true { s' with idx := s'.idx + 1 }) := by
    simp only [tokenize, hskip]
    rw [if_neg (by omega), hminus]
    simp [hIden, hPunct, hnextElem, hdigit]
  refine ⟨hmain, ?_⟩
  intro t s'' htok
  rw [hmain] at htok
  cases hnum : tokenizeNumber fuel true { s' with idx := s'.idx + 1 } with
  | ok t₀ s₀ =>
    rw [hnum] at htok
    cases htok
    exact tokenizeNumber_ok_numeric hnum
  | err d s₀ => rw [hnum] at htok; cases htok
  | panic => rw [hnum] at htok; cases htok
  | stuck => rw [hnum] at htok; cases htok

theorem c6_minus_digit_fuses_witness :
    skip 99 (initState "-5") = .ok () (initState "-5") ∧
    isDigit '5' = true ∧
    tokenize 100 (initState "-5") =
      liftStep (tokenizeNumber 99 true ⟨"-5".toList, 1, []⟩) ∧
    tokenize 100 (initState "-5") =
      .tok (.int (1, 2) .decimal (-5) [] .none) ⟨"-5".toList, 2, []⟩ :=
  ⟨rfl, rfl,
    (c6_minus_digit_fuses_into_number 99 (initState "-5") (initState "-5") '5'
      rfl rfl rfl rfl).1,
    rfl⟩

/-- C7 (counterexample): the claim states that inside a `(`-group a
mismatched closer such as `]` becomes an ordinary `Punct` token in the
child sequence and is not an error.  In fact brackets are not in the
punctuator set, so the driver fails with `E0013` (invalid character): on
`"( ] )"` the first pull is that diagnostic, not a group with a `Punct`
child. -/
theorem c7_counterexample_mismatched_closer_is_error :
    pulls 100 1 (initState "( ] )") =
      [.diag (e0013 2) ⟨"( ] )".toList, 2, []⟩] := rfl

/-- C7 (amended): a closing bracket of a different kind than the opener's
match is indeed not a terminator, but it is not a `Punct` token either:
`]`, `}`, `)` are not punctuators and the driver raises `E0013` when it
meets one inside a group; only the matching closer ends the group (as on
`"()"` and `"{ iden }"`). -/
theorem c7_amended_mismatched_closer_E0013_not_punct :
    isPunct ']' = false ∧ isPunct rbrace = false ∧ isPunct ')' = false ∧
    (pulls 100 1 (initState "( ] )")).map PullResult.kind = [.diag "E0013"] ∧
    tokenize 100 (initState "()") =
      .tok (.group (0, 2) [] [] .none) ⟨"()".toList, 2, []⟩ ∧
    tokenize 100 (initState "{ iden }") =
      .tok (.group (0, 8) [.iden (2, 6) "iden" [] .whitespace] [] .none)
        ⟨"{ iden }".toList, 8, []⟩ :=
  ⟨rfl, rfl, rfl, rfl, rfl, rfl⟩

/-- C8: spacing precedence.  Whenever `Lexer::spacing` succeeds, its
result is `LineBreak` exactly when a line break occurs anywhere in the
trivia run from the just-completed token's end (even if whitespace or
comments also occurred), `Whitespace` exactly when that run is nonempty
but has no line break, and `None` exactly when the run is empty. -/
theorem c8_spacing_precedence (fuel : Nat) (s s' : LexState) (sp : Spacing)
    (h : spacing fuel s = .ok sp s') :
    (sp = .lineBreak ↔ Skipped.lineBreak ∈ triviaUnits fuel s) ∧
    (sp = .whitespace ↔ (Skipped.lineBreak ∉ triviaUnits fuel s ∧
      triviaUnits fuel s ≠ [])) ∧
    (sp = .none ↔ triviaUnits fuel s = []) := by
  obtain ⟨h1, h2, h3⟩ := spacingLoop_characterization fuel false s s' sp h
  refine ⟨h1, ?_, ?_⟩
  · rw [h2]
    simp
  · rw [h3]
    simp

theorem c8_spacing_precedence_witness :
    spacing 100 ⟨"a \n b".toList, 1, []⟩ = .ok .lineBreak ⟨"a \n b".toList, 3, []⟩ ∧
    (Spacing.lineBreak = Spacing.lineBreak ↔
      Skipped.lineBreak ∈ triviaUnits 100 ⟨"a \n b".toList, 1, []⟩) :=
  ⟨rfl, (c8_spacing_precedence 100 ⟨"a \n b".toList, 1, []⟩
    ⟨"a \n b".toList, 3, []⟩ .lineBreak rfl).1⟩

/-- C9: the claim states that after the exponent marker and its optional
sign, a missing exponent digit at end of input is `E0004` and a non-digit
first exponent character is `E0005`.  In fact the inner exponent loop's
`first` flag is initialized `false` and never becomes `true`, so that loop
can never return an error: `"1.0e+"` (end of input after the sign) and
`"1.0ex"` (non-digit first exponent character) both fall through to the
final float parse and fail with `E0006`; only `"1.0e"` (end of input
directly after the marker, checked before the loop) yields `E0004`. -/
theorem c9_exponent_digit_errors_unreachable :
    (∀ (fuel : Nat) (number : String) (startIndex : Nat) (s : LexState) (d : Diag)
      (s' : LexState), expLoop fuel false number startIndex s ≠ .err d s') ∧
    (pulls 100 1 (initState "1.0e+")).map PullResult.kind = [.diag "E0006"] ∧
    (pulls 100 1 (initState "1.0ex")).map PullResult.kind = [.diag "E0006"] ∧
    (pulls 100 1 (initState "1.0e")).map PullResult.kind = [.diag "E0004"] :=
  ⟨fun fuel => expLoop_false_ne_err fuel, rfl, rfl, rfl⟩

/-- C10: if trivia skipping succeeds and leaves the cursor at or past the
end of input, the pull returns end of sequence with exactly the skipped
state — any comments buffered during that final skip sit in the state's
buffer, are attached to no token (none is ever produced again), and every
further pull again returns end of sequence. -/
theorem c10_trailing_trivia_eos_comments_discarded (fuel : Nat) (s s' : LexState)
    (hskip : skip fuel s = .ok () s') (hend : s'.chars.length ≤ s'.idx) :
    tokenize (fuel + 1) s = .eos s' ∧
    (∀ fuel' : Nat, tokenize (fuel' + 2) s' = .eos s') := by
  constructor
  · simp only [tokenize, hskip]
    rw [if_pos hend]
  · intro fuel'
    exact tokenize_eos_stable fuel' hend

theorem c10_trailing_trivia_witness :
    skip 99 (initState "/* hi */") =
      .ok () ⟨"/* hi */".toList, 8, [⟨(0, 8), "hi", .block⟩]⟩ ∧
    tokenize 100 (initState "/* hi */") =
      .eos ⟨"/* hi */".toList, 8, [⟨(0, 8), "hi", .block⟩]⟩ ∧
    tokenize 50 ⟨"/* hi */".toList, 8, [⟨(0, 8), "hi", .block⟩]⟩ =
      .eos ⟨"/* hi */".toList, 8, [⟨(0, 8), "hi", .block⟩]⟩ ∧
    (⟨"/* hi */".toList, 8, [⟨(0, 8), "hi", .block⟩]⟩ : LexState).comments ≠ [] := by
  refine ⟨rfl, ?_, ?_, by simp⟩
  · exact (c10_trailing_trivia_eos_comments_discarded 99 (initState "/* hi */")
      ⟨"/* hi */".toList, 8, [⟨(0, 8), "hi", .block⟩]⟩ rfl (by decide)).1
  · exact (c10_trailing_trivia_eos_comments_discarded 99 (initState "/* hi */")
      ⟨"/* hi */".toList, 8, [⟨(0, 8), "hi", .block⟩]⟩ rfl (by decide)).2 48

end Cherry
